import Mathlib

/-!
Verification of the pr-reviewer-service core: the domain validator
(internal/domain/validator), the reviewer selection and pull-request
lifecycle engine (internal/service/reviewer_service), and the SQL
repository semantics (internal/repository/repository).  Go values are
embedded shallowly: UUIDs become naturals with 0 as the nil sentinel,
machine integers become naturals (all counts involved are non-negative
and far from overflow), the seeded pseudo-random source becomes an
explicit stream of naturals consumed in order, and every fallible Go
function returns an Except value carrying the exact error string the
source builds.
-/

namespace PRReviewer

/-- Model of github.com/google/uuid UUID values: an opaque identifier;
0 plays the role of uuid.Nil, the all-zero sentinel. -/
abbrev UUID := Nat

/-- Model of uuid.Nil. -/
def uuidNil : UUID := 0

/-- internal/domain models.go: User row, with the team name resolved as
the repository queries return it. The TeamID column is omitted: no
modelled operation reads it. -/
structure User where
  userID : UUID
  username : String
  teamName : String
  isActive : Bool
deriving DecidableEq, Repr

/-- internal/domain models.go: TeamMember. -/
structure TeamMember where
  userID : UUID
  username : String
  isActive : Bool
deriving DecidableEq, Repr

/-- internal/domain models.go: Team. -/
structure Team where
  teamID : UUID
  teamName : String
  members : List TeamMember
deriving DecidableEq, Repr

/-- internal/domain models.go: PullRequest as the service constructs it
(CreatedAt and MergedAt are set by the database, not by the service
value; they are carried in the row model PRRow below). -/
structure PullRequest where
  pullRequestID : UUID
  pullRequestName : String
  authorID : UUID
  status : String
deriving DecidableEq, Repr

/-- internal/domain models.go: PullRequestWithReviewers, as returned by
Repository.GetPRByID. CreatedAt is omitted (no modelled operation reads
it); MergedAt is modelled as an optional natural timestamp. -/
structure PullRequestWithReviewers where
  pullRequestID : UUID
  pullRequestName : String
  authorID : UUID
  status : String
  assignedReviewers : List UUID
  mergedAt : Option Nat
deriving DecidableEq, Repr

/-- internal/domain models.go: PullRequestShort. -/
structure PullRequestShort where
  pullRequestID : UUID
  pullRequestName : String
  authorID : UUID
  status : String
deriving DecidableEq, Repr

/-- internal/domain stats.go: UserAssignmentStats. -/
structure UserAssignmentStats where
  userID : UUID
  username : String
  teamName : String
  totalAssignments : Nat
  openAssignments : Nat
  mergedAssignments : Nat
deriving DecidableEq, Repr

/-- internal/domain stats.go: PRStats. The float64 field
AvgMergeTimeHours is modelled as a rational: it is only ever carried
through by the modelled operations, never computed on. -/
structure PRStats where
  totalOpen : Nat
  totalMerged : Nat
  totalPRs : Nat
  avgMergeTimeHours : Rat
deriving DecidableEq, Repr

/-- internal/domain stats.go: Statistics. -/
structure Statistics where
  prStats : PRStats
  userStats : List UserAssignmentStats
  totalUsers : Nat
  totalTeams : Nat
  activeUsers : Nat
deriving DecidableEq, Repr

/-- internal/domain models.go: StatusOpen. -/
def StatusOpen : String := "open"

/-- internal/domain models.go: StatusMerged. -/
def StatusMerged : String := "merged"

/-- Model of Go unicode.IsSpace on the code points the repository can
meet in practice: the Latin-1 white space set. Higher Unicode space
categories (Zs beyond U+00A0, Zl, Zp) are not modelled. -/
def isGoSpace (c : Char) : Bool :=
  c == ' ' || c == '\t' || c == '\n' || c == '\x0b' || c == '\x0c' || c == '\r' ||
    c.val == 0x85 || c.val == 0xa0

/-- Model of the test strings.TrimSpace(s) == stringEmpty used by the
validator: true exactly when every character of s is white space. -/
def trimEmpty (s : String) : Bool :=
  s.data.all isGoSpace

/-- Byte count of the UTF-8 encoding of one character, as Go len()
counts it. -/
def charUtf8Size (c : Char) : Nat :=
  if c.val < 0x80 then 1 else if c.val < 0x800 then 2
  else if c.val < 0x10000 then 3 else 4

/-- Model of Go len(s): the UTF-8 byte length of the string. -/
def strBytes (s : String) : Nat :=
  s.data.foldl (fun n c => n + charUtf8Size c) 0

/-- internal/domain validator.go ValidateTeamMember. -/
def ValidateTeamMember (member : TeamMember) : Except String Unit :=
  if member.userID = uuidNil then .error ("user_id cannot be nil UUID")
  else if trimEmpty member.username then .error ("username cannot be empty")
  else if strBytes member.username > 255 then
    .error ("username too long (max 255 characters)")
  else .ok ()

/-- internal/domain validator.go ValidateTeam, member loop: validates
each member in order and tracks the set of user ids already seen, as
the Go range loop does with its seen map. The duplicate error prints
the offending id. -/
def validateMembersLoop : List TeamMember → List UUID → Except String Unit
  | [], _ => .ok ()
  | m :: rest, seen =>
    match ValidateTeamMember m with
    | .error e => .error e
    | .ok _ =>
      if seen.contains m.userID then
        .error ("duplicate user_id in team: " ++ toString m.userID)
      else validateMembersLoop rest (m.userID :: seen)

/-- internal/domain validator.go ValidateTeam. -/
def ValidateTeam (team : Team) : Except String Unit :=
  if trimEmpty team.teamName then .error ("team_name cannot be empty")
  else if strBytes team.teamName > 255 then
    .error ("team_name too long (max 255 characters)")
  else if team.members.length = 0 then
    .error ("team must have at least one member")
  else validateMembersLoop team.members []

/-- internal/domain validator.go ValidatePRStatus. -/
def ValidatePRStatus (status : String) : Except String Unit :=
  if status ≠ StatusOpen ∧ status ≠ StatusMerged then
    .error ("invalid PR status: " ++ status ++ ", must be OPEN or MERGED")
  else .ok ()

/-- internal/domain validator.go ValidatePullRequest. -/
def ValidatePullRequest (pr : PullRequest) : Except String Unit :=
  if pr.pullRequestID = uuidNil then .error ("pull_request_id cannot be nil UUID")
  else if trimEmpty pr.pullRequestName then .error ("pull_request_name cannot be empty")
  else if strBytes pr.pullRequestName > 255 then
    .error ("pull_request_name too long (max 255 characters)")
  else if pr.authorID = uuidNil then .error ("author_id cannot be nil UUID")
  else ValidatePRStatus pr.status

/-- internal/domain validator.go ValidateReviewersCount. -/
def ValidateReviewersCount (reviewers : List UUID) : Except String Unit :=
  if reviewers.length < 2 then .error ("not enough reviewers: minimum 2 required")
  else if reviewers.length > 2 then .error ("cannot assign more than 2 reviewers")
  else .ok ()

instance {ε α : Type _} [DecidableEq ε] [DecidableEq α] : DecidableEq (Except ε α) := fun a b =>
  match a, b with
  | .error x, .error y =>
    match decEq x y with
    | .isTrue h => .isTrue (by rw [h])
    | .isFalse h => .isFalse (fun c => h (by cases c; rfl))
  | .error _, .ok _ => .isFalse (fun c => Except.noConfusion c)
  | .ok _, .error _ => .isFalse (fun c => Except.noConfusion c)
  | .ok x, .ok y =>
    match decEq x y with
    | .isTrue h => .isTrue (by rw [h])
    | .isFalse h => .isFalse (fun c => h (by cases c; rfl))

lemma validateTeamMember_ok_iff (m : TeamMember) :
    ValidateTeamMember m = .ok () ↔
      (m.userID ≠ uuidNil ∧ trimEmpty m.username = false ∧ strBytes m.username ≤ 255) := by
  unfold ValidateTeamMember
  split_ifs with h1 h2 h3
  · refine iff_of_false (fun h => by simp at h) (fun ⟨h, _, _⟩ => h h1)
  · refine iff_of_false (fun h => by simp at h) (fun ⟨_, h, _⟩ => by simp [h] at h2)
  · refine iff_of_false (fun h => by simp at h) (fun ⟨_, _, h⟩ => by omega)
  · exact iff_of_true rfl ⟨h1, by simpa using h2, by omega⟩

lemma validateMembersLoop_ok_iff (l : List TeamMember) (seen : List UUID) :
    validateMembersLoop l seen = .ok () ↔
      ((∀ m ∈ l, ValidateTeamMember m = .ok ()) ∧
       (l.map TeamMember.userID).Nodup ∧
       ∀ m ∈ l, m.userID ∉ seen) := by
  induction l generalizing seen with
  | nil => simp [validateMembersLoop]
  | cons m rest ih =>
    unfold validateMembersLoop
    cases hv : ValidateTeamMember m with
    | error e =>
      dsimp only
      constructor
      · intro h
        simp at h
      · rintro ⟨hall, -, -⟩
        have hm := hall m (List.mem_cons_self m rest)
        rw [hv] at hm
        simp at hm
    | ok u =>
      dsimp only
      by_cases hc : m.userID ∈ seen
      · rw [if_pos (by simpa using hc)]
        constructor
        · intro h
          simp at h
        · rintro ⟨-, -, hns⟩
          exact absurd hc (hns m (List.mem_cons_self m rest))
      · rw [if_neg (by simpa using hc)]
        rw [ih]
        constructor
        · rintro ⟨hall, hnd, hns⟩
          refine ⟨?_, ?_, ?_⟩
          · intro x hx
            rcases List.mem_cons.mp hx with h | h
            · subst h
              cases u
              exact hv
            · exact hall x h
          · simp only [List.map_cons, List.nodup_cons]
            refine ⟨?_, hnd⟩
            intro hmem
            rcases List.mem_map.mp hmem with ⟨y, hy, hyeq⟩
            exact (hns y hy) (by simp [hyeq])
          · intro x hx
            rcases List.mem_cons.mp hx with h | h
            · subst h
              exact hc
            · exact fun hmem => (hns x h) (List.mem_cons_of_mem _ hmem)
        · rintro ⟨hall, hnd, hns⟩
          simp only [List.map_cons, List.nodup_cons] at hnd
          refine ⟨fun x hx => hall x (List.mem_cons_of_mem _ hx), hnd.2, ?_⟩
          intro x hx hmem
          rcases List.mem_cons.mp hmem with h | h
          · exact hnd.1 (List.mem_map.mpr ⟨x, hx, h⟩)
          · exact (hns x (List.mem_cons_of_mem _ hx)) h

/-- Claim C6 (counterexample): the code rejects a team whose name is a
single blank, although the claimed acceptance condition (name
non-empty, within length, one valid member with a non-empty username)
holds for it: ValidateTeam tests emptiness after trimming white
space, not plain emptiness. -/
def teamBlankName : Team :=
  ⟨0, " ", [⟨1, "a", true⟩]⟩

/-- Claim C6, counterexample: the team with the blank name satisfies
every acceptance condition the claim states, yet ValidateTeam rejects
it with the emptiness error. -/
theorem validateTeam_claim_false :
    ValidateTeam teamBlankName = .error ("team_name cannot be empty") ∧
    teamBlankName.teamName ≠ "" ∧
    strBytes teamBlankName.teamName ≤ 255 ∧
    teamBlankName.members ≠ [] ∧
    (teamBlankName.members.map TeamMember.userID).Nodup ∧
    (∀ m ∈ teamBlankName.members,
      m.userID ≠ uuidNil ∧ m.username ≠ "" ∧ strBytes m.username ≤ 255) := by
  refine ⟨by decide, by decide, by decide, by decide, by decide, by decide⟩

/-- Claim C6 (amended): ValidateTeam accepts a team exactly when the
team name is non-empty after trimming white space and at most 255
bytes, the member list is non-empty, no two members share a user id,
and every member has a non-nil id and a username that is non-empty
after trimming white space and at most 255 bytes. -/
theorem validateTeam_ok_iff (team : Team) :
    ValidateTeam team = .ok () ↔
      (trimEmpty team.teamName = false ∧
       strBytes team.teamName ≤ 255 ∧
       team.members ≠ [] ∧
       (team.members.map TeamMember.userID).Nodup ∧
       ∀ m ∈ team.members,
         m.userID ≠ uuidNil ∧ trimEmpty m.username = false ∧ strBytes m.username ≤ 255) := by
  unfold ValidateTeam
  split_ifs with h1 h2 h3
  · simp [h1]
  · simp only [false_iff]
    rintro ⟨-, hle, -⟩
    omega
  · simp only [false_iff]
    rintro ⟨-, -, hne, -⟩
    exact hne (List.length_eq_zero.mp h3)
  · rw [validateMembersLoop_ok_iff]
    simp only [List.not_mem_nil, not_false_iff, implies_true, and_true]
    constructor
    · rintro ⟨hall, hnd⟩
      refine ⟨by simpa using h1, by omega, fun h => by simp [h] at h3, hnd, ?_⟩
      intro m hm
      exact (validateTeamMember_ok_iff m).mp (hall m hm)
    · rintro ⟨-, -, -, hnd, hall⟩
      exact ⟨fun m hm => (validateTeamMember_ok_iff m).mpr (hall m hm), hnd⟩

/-- Model of the seeded math/rand source the service owns: an infinite
stream of naturals together with the position of the next value to
consume. A fixed seed corresponds to a fixed stream. -/
structure Rng where
  stream : Nat → Nat
  pos : Nat

/-- Model of rand.Intn(n): consume the next stream value and reduce it
mod n, which is below n whenever n is positive (every modelled call
site guards n above zero). -/
def Rng.intn (r : Rng) (n : Nat) : Nat × Rng :=
  (r.stream r.pos % n, ⟨r.stream, r.pos + 1⟩)

/-- Effect of the swap closure the service passes to rand.Shuffle:
exchange positions i and j of the candidate slice. A position out of
range leaves the list unchanged (the modelled calls never produce
one). -/
def listSwap (l : List α) (i j : Nat) : List α :=
  match l[i]?, l[j]? with
  | some a, some b => (l.set i b).set j a
  | _, _ => l

/-- Fisher-Yates loop of Go rand.Shuffle: for i from n-1 down to 1,
draw j := Intn(i+1) and swap positions i and j. -/
def shuffleGo : List α → Rng → Nat → List α × Rng
  | l, rng, 0 => (l, rng)
  | l, rng, i + 1 =>
    let jr := rng.intn (i + 2)
    shuffleGo (listSwap l (i + 1) jr.1) jr.2 i

/-- Model of the call s.rand.Shuffle(len(candidates), swap) in
selectReviewers. -/
def shuffle (l : List α) (rng : Rng) : List α × Rng :=
  shuffleGo l rng (l.length - 1)

/-- internal/service reviewer_service.go minInt. -/
def minInt (a b : Nat) : Nat :=
  if a < b then a else b

/-- internal/service reviewer_service.go selectReviewers: keep the
members that are active and differ from excludeID, shuffle them with
the owned pseudo-random source, and return the user ids of the first
minInt maxCount (number of candidates) entries; with zero to take,
return the empty list without consuming randomness, as the Go early
return does. -/
def selectReviewers (rng : Rng) (members : List User) (excludeID : UUID) (maxCount : Nat) :
    List UUID × Rng :=
  let candidates := members.filter (fun m => m.userID != excludeID && m.isActive)
  let count := minInt maxCount candidates.length
  if count = 0 then ([], rng)
  else
    let sh := shuffle candidates rng
    ((sh.1.take count).map User.userID, sh.2)

lemma listSwap_perm [DecidableEq α] (l : List α) (i j : Nat) : (listSwap l i j).Perm l := by
  unfold listSwap
  cases hi : l[i]? with
  | none => exact List.Perm.refl l
  | some a =>
    cases hj : l[j]? with
    | none => exact List.Perm.refl l
    | some b =>
      dsimp only
      obtain ⟨hil, hia⟩ := List.getElem?_eq_some_iff.mp hi
      obtain ⟨hjl, hjb⟩ := List.getElem?_eq_some_iff.mp hj
      rw [List.perm_iff_count]
      intro x
      have hjl2 : j < (l.set i b).length := by simpa using hjl
      rw [List.count_set _ _ _ _ hjl2, List.count_set _ _ _ _ hil]
      have hmema : a ∈ l := List.getElem?_mem hi
      have hmemb : b ∈ l := List.getElem?_mem hj
      have hposa : a = x → 1 ≤ List.count x l := by
        intro h
        exact List.count_pos_iff.mpr (h ▸ hmema)
      have hposb : b = x → 1 ≤ List.count x l := by
        intro h
        exact List.count_pos_iff.mpr (h ▸ hmemb)
      rcases eq_or_ne i j with rfl | hne
      · simp only [List.getElem_set_self]
        rw [hia]
        by_cases h1 : a = x <;> by_cases h2 : b = x <;>
          simp only [h1, h2, beq_iff_eq, if_true, if_false, beq_self_eq_true] <;>
          simp_all
      · simp only [List.getElem_set_ne hne]
        rw [hia, hjb]
        by_cases h1 : a = x <;> by_cases h2 : b = x <;>
          simp only [h1, h2, beq_iff_eq, if_true, if_false, beq_self_eq_true] <;>
          simp_all

lemma shuffleGo_perm [DecidableEq α] (n : Nat) (l : List α) (rng : Rng) :
    (shuffleGo l rng n).1.Perm l := by
  induction n generalizing l rng with
  | zero => exact List.Perm.refl l
  | succ i ih =>
    unfold shuffleGo
    exact (ih _ _).trans (listSwap_perm l (i + 1) _)

lemma shuffle_perm [DecidableEq α] (l : List α) (rng : Rng) : (shuffle l rng).1.Perm l :=
  shuffleGo_perm _ l rng

lemma selectReviewers_length (rng : Rng) (members : List User) (excludeID : UUID) (maxCount : Nat) :
    (selectReviewers rng members excludeID maxCount).1.length =
      minInt maxCount (members.filter (fun m => m.userID != excludeID && m.isActive)).length := by
  unfold selectReviewers
  dsimp only
  split_ifs with h
  · simpa using h.symm
  · have hlen := (shuffle_perm (members.filter fun m => m.userID != excludeID && m.isActive)
      rng).length_eq
    simp only [List.length_map, List.length_take, hlen]
    unfold minInt at h ⊢
    split_ifs with h2 <;> omega

lemma selectReviewers_mem (rng : Rng) (members : List User) (excludeID : UUID) (maxCount : Nat)
    (x : UUID) (hx : x ∈ (selectReviewers rng members excludeID maxCount).1) :
    ∃ m ∈ members, m.userID = x ∧ m.userID ≠ excludeID ∧ m.isActive = true := by
  unfold selectReviewers at hx
  dsimp only at hx
  split_ifs at hx with h
  · simp at hx
  · simp only [List.mem_map] at hx
    obtain ⟨m, hm, hmx⟩ := hx
    have hm2 : m ∈ (shuffle (members.filter fun m => m.userID != excludeID && m.isActive) rng).1 :=
      (List.take_sublist _ _).mem hm
    have hm3 := (shuffle_perm _ rng).mem_iff.mp hm2
    simp only [List.mem_filter, Bool.and_eq_true, bne_iff_ne, ne_eq] at hm3
    exact ⟨m, hm3.1, hmx, hm3.2.1, hm3.2.2⟩

lemma selectReviewers_nodup (rng : Rng) (members : List User) (excludeID : UUID) (maxCount : Nat)
    (hnd : (members.map User.userID).Nodup) :
    (selectReviewers rng members excludeID maxCount).1.Nodup := by
  unfold selectReviewers
  dsimp only
  split_ifs with h
  · simp
  · have hsub : List.Sublist
        ((members.filter fun m => m.userID != excludeID && m.isActive).map User.userID)
        (members.map User.userID) :=
      (List.filter_sublist members).map User.userID
    have hnd2 : ((members.filter fun m => m.userID != excludeID && m.isActive).map
        User.userID).Nodup := hnd.sublist hsub
    have hnd3 : ((shuffle (members.filter fun m => m.userID != excludeID && m.isActive)
        rng).1.map User.userID).Nodup :=
      ((shuffle_perm _ rng).map User.userID).nodup_iff.mpr hnd2
    rw [List.map_take]
    exact hnd3.sublist (List.take_sublist _ _)

/-- Claim C5: selectReviewers keeps exactly the members that are active
and differ from excludeID, permutes them by the Fisher-Yates shuffle
driven by the injected pseudo-random source, and returns the user ids
of the first minInt maxCount (number of candidates) entries; with no
candidate it returns the empty list rather than an error. Uniformity
of the permutation is inherited from the source and is not a statement
about this code. -/
theorem selectReviewers_spec (rng : Rng) (members : List User) (excludeID : UUID)
    (maxCount : Nat) :
    (selectReviewers rng members excludeID maxCount).1 =
      ((shuffle (members.filter (fun m => m.userID != excludeID && m.isActive)) rng).1.take
        (minInt maxCount
          (members.filter (fun m => m.userID != excludeID && m.isActive)).length)).map
        User.userID
    ∧ (shuffle (members.filter (fun m => m.userID != excludeID && m.isActive)) rng).1.Perm
        (members.filter (fun m => m.userID != excludeID && m.isActive))
    ∧ (selectReviewers rng members excludeID maxCount).1.length =
        minInt maxCount (members.filter (fun m => m.userID != excludeID && m.isActive)).length
    ∧ (members.filter (fun m => m.userID != excludeID && m.isActive) = [] →
        (selectReviewers rng members excludeID maxCount).1 = []) := by
  refine ⟨?_, shuffle_perm _ rng, selectReviewers_length rng members excludeID maxCount, ?_⟩
  · unfold selectReviewers
    dsimp only
    split_ifs with h
    · rw [h]
      simp
    · rfl
  · intro hempty
    unfold selectReviewers
    dsimp only
    rw [hempty]
    simp [minInt]

/-- Record of one repository invocation made by a service operation,
with its arguments: the ordered list of these is the persistence trace
of a call. -/
inductive RepoCall where
  | getUserByID (userID : UUID)
  | getTeamMembers (teamName : String)
  | setUserActive (userID : UUID) (isActive : Bool)
  | createPR (pr : PullRequest) (reviewers : List UUID)
  | getPRByID (prID : UUID)
  | prExists (prID : UUID)
  | updatePRStatus (prID : UUID) (status : String) (mergedAt : Option Nat)
  | replaceReviewer (prID oldUserID newUserID : UUID)
  | getPRsByReviewer (userID : UUID)
  | getPRStats
  | getUserAssignmentStats
  | getTotalUsers
  | getTotalTeams
  | getActiveUsers
deriving DecidableEq, Repr

/-- Repository calls that write persistent state; the others only
read. -/
def RepoCall.isWrite : RepoCall → Bool
  | .setUserActive .. => true
  | .createPR .. => true
  | .updatePRStatus .. => true
  | .replaceReviewer .. => true
  | _ => false

/-- internal/repository interface.go: the team, user and pull-request
repository operations the modelled service methods consume, over an
abstract persistence state σ. Each operation returns its result and
the successor state. -/
structure Repo (σ : Type) where
  GetUserByID : σ → UUID → Except String User × σ
  GetTeamMembers : σ → String → Except String (List User) × σ
  SetUserActive : σ → UUID → Bool → Except String Unit × σ
  CreatePR : σ → PullRequest → List UUID → Except String Unit × σ
  GetPRByID : σ → UUID → Except String PullRequestWithReviewers × σ
  PRExists : σ → UUID → Except String Bool × σ
  UpdatePRStatus : σ → UUID → String → Option Nat → Except String Unit × σ
  ReplaceReviewer : σ → UUID → UUID → UUID → Except String Unit × σ
  GetPRsByReviewer : σ → UUID → Except String (List PullRequestShort) × σ

/-- internal/repository interface.go: StatsRepository. -/
structure StatsRepo (σ : Type) where
  GetPRStats : σ → Except String PRStats × σ
  GetUserAssignmentStats : σ → Except String (List UserAssignmentStats) × σ
  GetTotalUsers : σ → Except String Nat × σ
  GetTotalTeams : σ → Except String Nat × σ
  GetActiveUsers : σ → Except String Nat × σ

/-- Outcome of one service operation: its result, the final
persistence state, the ordered trace of repository calls it made, and
the final state of the pseudo-random source. -/
structure Out (σ : Type) (α : Type) where
  res : Except String α
  st : σ
  calls : List RepoCall
  rng : Rng

/-- internal/service reviewer_service.go MergePR. The current wall
clock time.Now() is the explicit argument now. -/
def MergePR (repo : Repo σ) (s : σ) (rng : Rng) (prID : UUID) (now : Nat) :
    Out σ PullRequestWithReviewers :=
  if prID = uuidNil then ⟨.error ("pull_request_id cannot be nil UUID"), s, [], rng⟩
  else
    match repo.GetPRByID s prID with
    | (.error e, s1) => ⟨.error ("failed to get PR: " ++ e), s1, [.getPRByID prID], rng⟩
    | (.ok pr, s1) =>
      if pr.status = StatusMerged then ⟨.ok pr, s1, [.getPRByID prID], rng⟩
      else
        match repo.UpdatePRStatus s1 prID StatusMerged (some now) with
        | (.error e, s2) =>
          ⟨.error ("failed to merge PR: " ++ e), s2,
            [.getPRByID prID, .updatePRStatus prID StatusMerged (some now)], rng⟩
        | (.ok _, s2) =>
          match repo.GetPRByID s2 prID with
          | (.error e, s3) =>
            ⟨.error e, s3,
              [.getPRByID prID, .updatePRStatus prID StatusMerged (some now),
                .getPRByID prID], rng⟩
          | (.ok pr2, s3) =>
            ⟨.ok pr2, s3,
              [.getPRByID prID, .updatePRStatus prID StatusMerged (some now),
                .getPRByID prID], rng⟩

/-- internal/service reviewer_service.go CreatePR. -/
def CreatePR (repo : Repo σ) (s : σ) (rng : Rng) (prID : UUID) (prName : String)
    (authorID : UUID) : Out σ PullRequestWithReviewers :=
  let pr : PullRequest :=
    { pullRequestID := prID, pullRequestName := prName, authorID := authorID,
      status := StatusOpen }
  match ValidatePullRequest pr with
  | .error e => ⟨.error ("validation error: " ++ e), s, [], rng⟩
  | .ok _ =>
    match repo.PRExists s prID with
    | (.error e, s1) => ⟨.error e, s1, [.prExists prID], rng⟩
    | (.ok true, s1) => ⟨.error ("PR_EXISTS"), s1, [.prExists prID], rng⟩
    | (.ok false, s1) =>
      match repo.GetUserByID s1 authorID with
      | (.error e, s2) =>
        ⟨.error ("failed to get author: " ++ e), s2,
          [.prExists prID, .getUserByID authorID], rng⟩
      | (.ok author, s2) =>
        match repo.GetTeamMembers s2 author.teamName with
        | (.error e, s3) =>
          ⟨.error ("failed to get team members: " ++ e), s3,
            [.prExists prID, .getUserByID authorID, .getTeamMembers author.teamName], rng⟩
        | (.ok members, s3) =>
          let sel := selectReviewers rng members authorID 2
          match ValidateReviewersCount sel.1 with
          | .error e =>
            ⟨.error ("validation error: " ++ e), s3,
              [.prExists prID, .getUserByID authorID, .getTeamMembers author.teamName],
              sel.2⟩
          | .ok _ =>
            match repo.CreatePR s3 pr sel.1 with
            | (.error e, s4) =>
              ⟨.error ("failed to create PR: " ++ e), s4,
                [.prExists prID, .getUserByID authorID, .getTeamMembers author.teamName,
                  .createPR pr sel.1], sel.2⟩
            | (.ok _, s4) =>
              match repo.GetPRByID s4 prID with
              | (.error e, s5) =>
                ⟨.error e, s5,
                  [.prExists prID, .getUserByID authorID,
                    .getTeamMembers author.teamName, .createPR pr sel.1,
                    .getPRByID prID], sel.2⟩
              | (.ok out, s5) =>
                ⟨.ok out, s5,
                  [.prExists prID, .getUserByID authorID,
                    .getTeamMembers author.teamName, .createPR pr sel.1,
                    .getPRByID prID], sel.2⟩

/-- Default User value, the zero value a Go slice index expression can
never produce here because every modelled index is in range. -/
def defaultUser : User :=
  { userID := uuidNil, username := "", teamName := "", isActive := false }

/-- internal/service reviewer_service.go ReassignReviewer. -/
def ReassignReviewer (repo : Repo σ) (s : σ) (rng : Rng) (prID oldUserID : UUID) :
    Out σ (PullRequestWithReviewers × UUID) :=
  if prID = uuidNil ∨ oldUserID = uuidNil then ⟨.error ("IDs cannot be nil UUID"), s, [], rng⟩
  else
    match repo.GetPRByID s prID with
    | (.error e, s1) => ⟨.error ("failed to get PR: " ++ e), s1, [.getPRByID prID], rng⟩
    | (.ok pr, s1) =>
      if pr.status = StatusMerged then ⟨.error ("PR_MERGED"), s1, [.getPRByID prID], rng⟩
      else if pr.assignedReviewers.contains oldUserID = false then
        ⟨.error ("NOT_ASSIGNED"), s1, [.getPRByID prID], rng⟩
      else
        match repo.GetUserByID s1 oldUserID with
        | (.error e, s2) =>
          ⟨.error ("failed to get old user: " ++ e), s2,
            [.getPRByID prID, .getUserByID oldUserID], rng⟩
        | (.ok oldUser, s2) =>
          match repo.GetTeamMembers s2 oldUser.teamName with
          | (.error e, s3) =>
            ⟨.error ("failed to get team members: " ++ e), s3,
              [.getPRByID prID, .getUserByID oldUserID,
                .getTeamMembers oldUser.teamName], rng⟩
          | (.ok members, s3) =>
            let excludeIDs := pr.authorID :: pr.assignedReviewers
            let candidates :=
              members.filter (fun m => !(excludeIDs.contains m.userID) && m.isActive)
            if candidates = [] then
              ⟨.error ("NO_CANDIDATE"), s3,
                [.getPRByID prID, .getUserByID oldUserID,
                  .getTeamMembers oldUser.teamName], rng⟩
            else
              let jr := rng.intn candidates.length
              let newReviewer := candidates.getD jr.1 defaultUser
              match repo.ReplaceReviewer s3 prID oldUserID newReviewer.userID with
              | (.error e, s4) =>
                ⟨.error ("failed to replace reviewer: " ++ e), s4,
                  [.getPRByID prID, .getUserByID oldUserID,
                    .getTeamMembers oldUser.teamName,
                    .replaceReviewer prID oldUserID newReviewer.userID], jr.2⟩
              | (.ok _, s4) =>
                match repo.GetPRByID s4 prID with
                | (.error e, s5) =>
                  ⟨.error ("failed to get updated PR: " ++ e), s5,
                    [.getPRByID prID, .getUserByID oldUserID,
                      .getTeamMembers oldUser.teamName,
                      .replaceReviewer prID oldUserID newReviewer.userID,
                      .getPRByID prID], jr.2⟩
                | (.ok updatedPR, s5) =>
                  ⟨.ok (updatedPR, newReviewer.userID), s5,
                    [.getPRByID prID, .getUserByID oldUserID,
                      .getTeamMembers oldUser.teamName,
                      .replaceReviewer prID oldUserID newReviewer.userID,
                      .getPRByID prID], jr.2⟩

/-- internal/service reviewer_service.go GetUserReviews. -/
def GetUserReviews (repo : Repo σ) (s : σ) (rng : Rng) (userID : UUID) :
    Out σ (List PullRequestShort) :=
  if userID = uuidNil then ⟨.error ("user_id cannot be nil UUID"), s, [], rng⟩
  else
    match repo.GetPRsByReviewer s userID with
    | (.error e, s1) => ⟨.error e, s1, [.getPRsByReviewer userID], rng⟩
    | (.ok prs, s1) => ⟨.ok prs, s1, [.getPRsByReviewer userID], rng⟩

/-- internal/service reviewer_service.go SetUserActive. -/
def SetUserActive (repo : Repo σ) (s : σ) (rng : Rng) (userID : UUID) (isActive : Bool) :
    Out σ User :=
  if userID = uuidNil then ⟨.error ("user_id cannot be nil UUID"), s, [], rng⟩
  else
    match repo.SetUserActive s userID isActive with
    | (.error e, s1) =>
      ⟨.error ("failed to set user active: " ++ e), s1, [.setUserActive userID isActive], rng⟩
    | (.ok _, s1) =>
      match repo.GetUserByID s1 userID with
      | (.error e, s2) =>
        ⟨.error e, s2, [.setUserActive userID isActive, .getUserByID userID], rng⟩
      | (.ok user, s2) =>
        ⟨.ok user, s2, [.setUserActive userID isActive, .getUserByID userID], rng⟩

/-- internal/service reviewer_service.go GetStatistics: the five reads
in program order, each failure wrapped with its operation name and
surfaced at once; the report is assembled only when all five
succeed. -/
def GetStatistics (stats : StatsRepo σ) (s : σ) (rng : Rng) : Out σ Statistics :=
  match stats.GetPRStats s with
  | (.error e, s1) => ⟨.error ("failed to get PR stats: " ++ e), s1, [.getPRStats], rng⟩
  | (.ok prStats, s1) =>
    match stats.GetUserAssignmentStats s1 with
    | (.error e, s2) =>
      ⟨.error ("failed to get user stats: " ++ e), s2,
        [.getPRStats, .getUserAssignmentStats], rng⟩
    | (.ok userStats, s2) =>
      match stats.GetTotalUsers s2 with
      | (.error e, s3) =>
        ⟨.error ("failed to get total users: " ++ e), s3,
          [.getPRStats, .getUserAssignmentStats, .getTotalUsers], rng⟩
      | (.ok totalUsers, s3) =>
        match stats.GetTotalTeams s3 with
        | (.error e, s4) =>
          ⟨.error ("failed to get total teams: " ++ e), s4,
            [.getPRStats, .getUserAssignmentStats, .getTotalUsers, .getTotalTeams], rng⟩
        | (.ok totalTeams, s4) =>
          match stats.GetActiveUsers s4 with
          | (.error e, s5) =>
            ⟨.error ("failed to get active users: " ++ e), s5,
              [.getPRStats, .getUserAssignmentStats, .getTotalUsers, .getTotalTeams,
                .getActiveUsers], rng⟩
          | (.ok activeUsers, s5) =>
            ⟨.ok
              { prStats := prStats, userStats := userStats, totalUsers := totalUsers,
                totalTeams := totalTeams, activeUsers := activeUsers }, s5,
              [.getPRStats, .getUserAssignmentStats, .getTotalUsers, .getTotalTeams,
                .getActiveUsers], rng⟩

/-- Claim C4: ReassignReviewer checks its preconditions in order, each
failure returning its token with only the reads already made in the
trace and no write: a merged PR fails PR_MERGED regardless of the
other conditions; an open PR without the old reviewer assigned fails
NOT_ASSIGNED; an open PR with the old reviewer assigned but no active
team member outside the author and the assigned reviewers fails
NO_CANDIDATE. -/
theorem reassignReviewer_precondition_order (σ : Type) (repo : Repo σ) (s s1 : σ) (rng : Rng)
    (prID oldUserID : UUID) (pr : PullRequestWithReviewers)
    (hpr : prID ≠ uuidNil) (hold : oldUserID ≠ uuidNil)
    (hget : repo.GetPRByID s prID = (.ok pr, s1)) :
    (pr.status = StatusMerged →
      ReassignReviewer repo s rng prID oldUserID =
        ⟨.error ("PR_MERGED"), s1, [.getPRByID prID], rng⟩) ∧
    (pr.status ≠ StatusMerged → pr.assignedReviewers.contains oldUserID = false →
      ReassignReviewer repo s rng prID oldUserID =
        ⟨.error ("NOT_ASSIGNED"), s1, [.getPRByID prID], rng⟩) ∧
    (∀ (s2 s3 : σ) (oldUser : User) (members : List User),
      pr.status ≠ StatusMerged → pr.assignedReviewers.contains oldUserID = true →
      repo.GetUserByID s1 oldUserID = (.ok oldUser, s2) →
      repo.GetTeamMembers s2 oldUser.teamName = (.ok members, s3) →
      members.filter
          (fun m => !((pr.authorID :: pr.assignedReviewers).contains m.userID) &&
            m.isActive) = [] →
      ReassignReviewer repo s rng prID oldUserID =
        ⟨.error ("NO_CANDIDATE"), s3,
          [.getPRByID prID, .getUserByID oldUserID,
            .getTeamMembers oldUser.teamName], rng⟩) := by
  have hnil : ¬(prID = uuidNil ∨ oldUserID = uuidNil) := by
    simp [hpr, hold]
  refine ⟨?_, ?_, ?_⟩
  · intro hm
    unfold ReassignReviewer
    rw [if_neg hnil, hget]
    dsimp only
    rw [if_pos hm]
  · intro hm hc
    unfold ReassignReviewer
    rw [if_neg hnil, hget]
    dsimp only
    rw [if_neg hm, if_pos hc]
  · intro s2 s3 oldUser members hm hc hgu hgt hfil
    unfold ReassignReviewer
    rw [if_neg hnil, hget]
    dsimp only
    rw [if_neg hm, if_neg (by rw [hc]; simp), hgu]
    dsimp only
    rw [hgt]
    dsimp only
    rw [if_pos hfil]

/-- Shared stream for concrete witness evaluations: the constant-zero
pseudo-random source at position zero. -/
def rngW : Rng := ⟨fun _ => 0, 0⟩

/-- Concrete repository over a unit state used by witnesses: one open
pull request 5 by author 1 with reviewer 2, on team backend whose only
active members are the author and that reviewer. -/
def unitRepo : Repo Unit where
  GetUserByID := fun s _ => (.ok ⟨2, "Bob", "backend", true⟩, s)
  GetTeamMembers := fun s _ =>
    (.ok [⟨1, "Alice", "backend", true⟩, ⟨2, "Bob", "backend", true⟩], s)
  SetUserActive := fun s _ _ => (.ok (), s)
  CreatePR := fun s _ _ => (.ok (), s)
  GetPRByID := fun s _ => (.ok ⟨5, "Feature", 1, StatusOpen, [2], none⟩, s)
  PRExists := fun s _ => (.ok false, s)
  UpdatePRStatus := fun s _ _ _ => (.ok (), s)
  ReplaceReviewer := fun s _ _ _ => (.ok (), s)
  GetPRsByReviewer := fun s _ => (.ok [], s)

/-- Claim C4, witness: on the concrete repository the reassignment of
reviewer 2 on pull request 5 fails NO_CANDIDATE after exactly the
three reads. -/
theorem reassignReviewer_precondition_order_witness :
    ReassignReviewer unitRepo () rngW 5 2 =
      ⟨.error ("NO_CANDIDATE"), (),
        [.getPRByID 5, .getUserByID 2, .getTeamMembers ("backend")], rngW⟩ :=
  (reassignReviewer_precondition_order Unit unitRepo () () rngW 5 2
      ⟨5, "Feature", 1, StatusOpen, [2], none⟩ (by decide) (by decide) rfl).2.2
    () () ⟨2, "Bob", "backend", true⟩
    [⟨1, "Alice", "backend", true⟩, ⟨2, "Bob", "backend", true⟩]
    (by decide) (by decide) rfl rfl (by decide)

/-- Claim C7: with a fixed pseudo-random source state (fixed seed,
fixed position) and fixed inputs, selectReviewers and the
ReassignReviewer candidate pick return the same result on every run:
both are functions of the explicit source state alone besides their
inputs. -/
theorem fixed_seed_determinism (r1 r2 : Rng) (hs : r1.stream = r2.stream)
    (hp : r1.pos = r2.pos) :
    (∀ (members : List User) (excludeID : UUID) (maxCount : Nat),
      selectReviewers r1 members excludeID maxCount =
        selectReviewers r2 members excludeID maxCount) ∧
    (∀ (σ : Type) (repo : Repo σ) (s : σ) (prID oldUserID : UUID),
      ReassignReviewer repo s r1 prID oldUserID =
        ReassignReviewer repo s r2 prID oldUserID) := by
  obtain ⟨st1, p1⟩ := r1
  obtain ⟨st2, p2⟩ := r2
  cases hs
  cases hp
  exact ⟨fun _ _ _ => rfl, fun _ _ _ _ _ => rfl⟩

/-- Claim C7, witness: the determinism statement instantiated at the
constant-zero source. -/
theorem fixed_seed_determinism_witness :
    (∀ (members : List User) (excludeID : UUID) (maxCount : Nat),
      selectReviewers rngW members excludeID maxCount =
        selectReviewers rngW members excludeID maxCount) ∧
    (∀ (σ : Type) (repo : Repo σ) (s : σ) (prID oldUserID : UUID),
      ReassignReviewer repo s rngW prID oldUserID =
        ReassignReviewer repo s rngW prID oldUserID) :=
  fixed_seed_determinism rngW rngW rfl rfl

/-- Claim C8: GetStatistics performs the five statistics reads in
order; the first failing read aborts the operation with that failure
wrapped in its operation label and no report value is produced; when
all five succeed the report is assembled from exactly their five
results. -/
theorem getStatistics_spec (σ : Type) (stats : StatsRepo σ) (s : σ) (rng : Rng) :
    (∀ (e : String) (s1 : σ),
      stats.GetPRStats s = (.error e, s1) →
      GetStatistics stats s rng =
        ⟨.error ("failed to get PR stats: " ++ e), s1, [.getPRStats], rng⟩) ∧
    (∀ (ps : PRStats) (s1 : σ) (e : String) (s2 : σ),
      stats.GetPRStats s = (.ok ps, s1) →
      stats.GetUserAssignmentStats s1 = (.error e, s2) →
      GetStatistics stats s rng =
        ⟨.error ("failed to get user stats: " ++ e), s2,
          [.getPRStats, .getUserAssignmentStats], rng⟩) ∧
    (∀ (ps : PRStats) (us : List UserAssignmentStats) (s1 s2 : σ) (e : String) (s3 : σ),
      stats.GetPRStats s = (.ok ps, s1) →
      stats.GetUserAssignmentStats s1 = (.ok us, s2) →
      stats.GetTotalUsers s2 = (.error e, s3) →
      GetStatistics stats s rng =
        ⟨.error ("failed to get total users: " ++ e), s3,
          [.getPRStats, .getUserAssignmentStats, .getTotalUsers], rng⟩) ∧
    (∀ (ps : PRStats) (us : List UserAssignmentStats) (tu : Nat) (s1 s2 s3 : σ)
        (e : String) (s4 : σ),
      stats.GetPRStats s = (.ok ps, s1) →
      stats.GetUserAssignmentStats s1 = (.ok us, s2) →
      stats.GetTotalUsers s2 = (.ok tu, s3) →
      stats.GetTotalTeams s3 = (.error e, s4) →
      GetStatistics stats s rng =
        ⟨.error ("failed to get total teams: " ++ e), s4,
          [.getPRStats, .getUserAssignmentStats, .getTotalUsers, .getTotalTeams], rng⟩) ∧
    (∀ (ps : PRStats) (us : List UserAssignmentStats) (tu tt : Nat) (s1 s2 s3 s4 : σ)
        (e : String) (s5 : σ),
      stats.GetPRStats s = (.ok ps, s1) →
      stats.GetUserAssignmentStats s1 = (.ok us, s2) →
      stats.GetTotalUsers s2 = (.ok tu, s3) →
      stats.GetTotalTeams s3 = (.ok tt, s4) →
      stats.GetActiveUsers s4 = (.error e, s5) →
      GetStatistics stats s rng =
        ⟨.error ("failed to get active users: " ++ e), s5,
          [.getPRStats, .getUserAssignmentStats, .getTotalUsers, .getTotalTeams,
            .getActiveUsers], rng⟩) ∧
    (∀ (ps : PRStats) (us : List UserAssignmentStats) (tu tt au : Nat) (s1 s2 s3 s4 s5 : σ),
      stats.GetPRStats s = (.ok ps, s1) →
      stats.GetUserAssignmentStats s1 = (.ok us, s2) →
      stats.GetTotalUsers s2 = (.ok tu, s3) →
      stats.GetTotalTeams s3 = (.ok tt, s4) →
      stats.GetActiveUsers s4 = (.ok au, s5) →
      GetStatistics stats s rng =
        ⟨.ok
          { prStats := ps, userStats := us, totalUsers := tu, totalTeams := tt,
            activeUsers := au }, s5,
          [.getPRStats, .getUserAssignmentStats, .getTotalUsers, .getTotalTeams,
            .getActiveUsers], rng⟩) := by
  refine ⟨?_, ?_, ?_, ?_, ?_, ?_⟩
  · intro e s1 h1
    unfold GetStatistics
    rw [h1]
  · intro ps s1 e s2 h1 h2
    unfold GetStatistics
    rw [h1]
    dsimp only
    rw [h2]
  · intro ps us s1 s2 e s3 h1 h2 h3
    unfold GetStatistics
    rw [h1]
    dsimp only
    rw [h2]
    dsimp only
    rw [h3]
  · intro ps us tu s1 s2 s3 e s4 h1 h2 h3 h4
    unfold GetStatistics
    rw [h1]
    dsimp only
    rw [h2]
    dsimp only
    rw [h3]
    dsimp only
    rw [h4]
  · intro ps us tu tt s1 s2 s3 s4 e s5 h1 h2 h3 h4 h5
    unfold GetStatistics
    rw [h1]
    dsimp only
    rw [h2]
    dsimp only
    rw [h3]
    dsimp only
    rw [h4]
    dsimp only
    rw [h5]
  · intro ps us tu tt au s1 s2 s3 s4 s5 h1 h2 h3 h4 h5
    unfold GetStatistics
    rw [h1]
    dsimp only
    rw [h2]
    dsimp only
    rw [h3]
    dsimp only
    rw [h4]
    dsimp only
    rw [h5]

/-- Concrete statistics repository over a unit state in which every
read succeeds with a fixed value. -/
def unitStats : StatsRepo Unit where
  GetPRStats := fun s => (.ok ⟨1, 2, 3, 0⟩, s)
  GetUserAssignmentStats := fun s => (.ok [], s)
  GetTotalUsers := fun s => (.ok 4, s)
  GetTotalTeams := fun s => (.ok 1, s)
  GetActiveUsers := fun s => (.ok 3, s)

/-- Claim C8, witness: on the all-success statistics repository the
report is assembled from exactly the five read results. -/
theorem getStatistics_spec_witness :
    GetStatistics unitStats () rngW =
      ⟨.ok
        { prStats := ⟨1, 2, 3, 0⟩, userStats := [], totalUsers := 4, totalTeams := 1,
          activeUsers := 3 }, (),
        [.getPRStats, .getUserAssignmentStats, .getTotalUsers, .getTotalTeams,
          .getActiveUsers], rngW⟩ :=
  (getStatistics_spec Unit unitStats () rngW).2.2.2.2.2 ⟨1, 2, 3, 0⟩ [] 4 1 3
    () () () () () rfl rfl rfl rfl rfl

/-- Claim C10: MergePR, ReassignReviewer, GetUserReviews and
SetUserActive each reject the nil UUID argument before any repository
call: the result is the validation error, the persistence state is
returned untouched and the call trace is empty. -/
theorem nil_uuid_rejected (σ : Type) (repo : Repo σ) (s : σ) (rng : Rng)
    (prID oldUserID : UUID) (isActive : Bool) (now : Nat) :
    MergePR repo s rng uuidNil now =
      ⟨.error ("pull_request_id cannot be nil UUID"), s, [], rng⟩ ∧
    ReassignReviewer repo s rng uuidNil oldUserID =
      ⟨.error ("IDs cannot be nil UUID"), s, [], rng⟩ ∧
    ReassignReviewer repo s rng prID uuidNil =
      ⟨.error ("IDs cannot be nil UUID"), s, [], rng⟩ ∧
    GetUserReviews repo s rng uuidNil =
      ⟨.error ("user_id cannot be nil UUID"), s, [], rng⟩ ∧
    SetUserActive repo s rng uuidNil isActive =
      ⟨.error ("user_id cannot be nil UUID"), s, [], rng⟩ := by
  refine ⟨rfl, rfl, ?_, rfl, rfl⟩
  unfold ReassignReviewer
  rw [if_pos (Or.inr rfl)]

/-- One row of the pull_requests table: id, name, author, status and
the nullable merged_at column (created_at is omitted: no modelled
operation reads it). -/
structure PRRow where
  pullRequestID : UUID
  pullRequestName : String
  authorID : UUID
  status : String
  mergedAt : Option Nat
deriving DecidableEq, Repr

/-- Abstract state of the tables the modelled repository operations
touch: users rows (carrying their resolved team name, as every
modelled query joins it), pull_requests rows and pr_reviewers
(pull_request_id, user_id) rows. -/
structure DB where
  users : List User
  prs : List PRRow
  prReviewers : List (UUID × UUID)
deriving DecidableEq, Repr

namespace Repository

/-- Reviewer rows of one pull request: SELECT user_id FROM
pr_reviewers WHERE pull_request_id = prID. -/
def reviewersOf (db : DB) (prID : UUID) : List UUID :=
  (db.prReviewers.filter (fun p => p.1 == prID)).map (fun p => p.2)

/-- repository.go GetPRByID: the pull_requests row joined with its
pr_reviewers rows; PR_NOT_FOUND when no row matches. -/
def GetPRByID (db : DB) (prID : UUID) : Except String PullRequestWithReviewers × DB :=
  match db.prs.find? (fun r => r.pullRequestID == prID) with
  | none => (.error ("PR_NOT_FOUND"), db)
  | some row =>
    (.ok { pullRequestID := row.pullRequestID, pullRequestName := row.pullRequestName,
           authorID := row.authorID, status := row.status,
           assignedReviewers := reviewersOf db prID, mergedAt := row.mergedAt }, db)

/-- repository.go PRExists: SELECT EXISTS. -/
def PRExists (db : DB) (prID : UUID) : Except String Bool × DB :=
  (.ok (db.prs.any (fun r => r.pullRequestID == prID)), db)

/-- repository.go GetUserByID. -/
def GetUserByID (db : DB) (userID : UUID) : Except String User × DB :=
  match db.users.find? (fun u => u.userID == userID) with
  | none => (.error ("USER_NOT_FOUND"), db)
  | some u => (.ok u, db)

/-- repository.go GetTeamMembers: the users joined to the named team;
row order is the table order of the model (the query imposes none). -/
def GetTeamMembers (db : DB) (teamName : String) : Except String (List User) × DB :=
  (.ok (db.users.filter (fun u => u.teamName == teamName)), db)

/-- repository.go SetUserActive: UPDATE users SET is_active WHERE
user_id, then USER_NOT_FOUND when no row was affected. -/
def SetUserActive (db : DB) (userID : UUID) (isActive : Bool) : Except String Unit × DB :=
  let affected := db.users.countP (fun u => u.userID == userID)
  let users2 :=
    db.users.map (fun u => if u.userID == userID then { u with isActive := isActive } else u)
  if affected = 0 then (.error ("USER_NOT_FOUND"), { db with users := users2 })
  else (.ok (), { db with users := users2 })

/-- repository.go CreatePR: inside one transaction, INSERT the
pull_requests row (PR_EXISTS on duplicate id) and one pr_reviewers row
per reviewer; merged_at is not inserted and stays null. -/
def CreatePR (db : DB) (pr : PullRequest) (reviewers : List UUID) :
    Except String Unit × DB :=
  if db.prs.any (fun r => r.pullRequestID == pr.pullRequestID) then
    (.error ("PR_EXISTS"), db)
  else
    (.ok (),
      { db with
        prs := db.prs ++
          [{ pullRequestID := pr.pullRequestID, pullRequestName := pr.pullRequestName,
             authorID := pr.authorID, status := pr.status, mergedAt := none }],
        prReviewers := db.prReviewers ++ reviewers.map (fun r => (pr.pullRequestID, r)) })

/-- repository.go UpdatePRStatus: UPDATE pull_requests SET status,
merged_at WHERE pull_request_id; no affected-row check. -/
def UpdatePRStatus (db : DB) (prID : UUID) (status : String) (mergedAt : Option Nat) :
    Except String Unit × DB :=
  (.ok (),
    { db with
      prs := db.prs.map (fun r =>
        if r.pullRequestID == prID then { r with status := status, mergedAt := mergedAt }
        else r) })

/-- repository.go ReplaceReviewer: UPDATE pr_reviewers SET user_id
WHERE pull_request_id AND user_id; REVIEWER_NOT_FOUND when no row was
affected. -/
def ReplaceReviewer (db : DB) (prID oldUserID newUserID : UUID) :
    Except String Unit × DB :=
  let affected := db.prReviewers.countP (fun p => p.1 == prID && p.2 == oldUserID)
  let rows2 := db.prReviewers.map (fun p =>
    if p.1 == prID && p.2 == oldUserID then (p.1, newUserID) else p)
  if affected = 0 then (.error ("REVIEWER_NOT_FOUND"), { db with prReviewers := rows2 })
  else (.ok (), { db with prReviewers := rows2 })

/-- repository.go GetPRsByReviewer: join of pr_reviewers with
pull_requests for one user; author_id is not selected and stays the
zero value; the created_at ordering is not modelled. -/
def GetPRsByReviewer (db : DB) (userID : UUID) :
    Except String (List PullRequestShort) × DB :=
  (.ok ((db.prReviewers.filter (fun p => p.2 == userID)).filterMap
    (fun p => (db.prs.find? (fun r => r.pullRequestID == p.1)).map
      (fun r =>
        { pullRequestID := r.pullRequestID, pullRequestName := r.pullRequestName,
          authorID := uuidNil, status := r.status }))), db)

end Repository

/-- The repository interface instantiated with the SQL semantics over
the abstract table state. -/
def dbRepo : Repo DB where
  GetUserByID := Repository.GetUserByID
  GetTeamMembers := Repository.GetTeamMembers
  SetUserActive := Repository.SetUserActive
  CreatePR := Repository.CreatePR
  GetPRByID := Repository.GetPRByID
  PRExists := Repository.PRExists
  UpdatePRStatus := Repository.UpdatePRStatus
  ReplaceReviewer := Repository.ReplaceReviewer
  GetPRsByReviewer := Repository.GetPRsByReviewer

@[simp] lemma dbRepo_GetUserByID : dbRepo.GetUserByID = Repository.GetUserByID := rfl

@[simp] lemma dbRepo_GetTeamMembers : dbRepo.GetTeamMembers = Repository.GetTeamMembers := rfl

@[simp] lemma dbRepo_SetUserActive : dbRepo.SetUserActive = Repository.SetUserActive := rfl

@[simp] lemma dbRepo_CreatePR : dbRepo.CreatePR = Repository.CreatePR := rfl

@[simp] lemma dbRepo_GetPRByID : dbRepo.GetPRByID = Repository.GetPRByID := rfl

@[simp] lemma dbRepo_PRExists : dbRepo.PRExists = Repository.PRExists := rfl

@[simp] lemma dbRepo_UpdatePRStatus : dbRepo.UpdatePRStatus = Repository.UpdatePRStatus := rfl

@[simp] lemma dbRepo_ReplaceReviewer : dbRepo.ReplaceReviewer = Repository.ReplaceReviewer := rfl

@[simp] lemma dbRepo_GetPRsByReviewer :
    dbRepo.GetPRsByReviewer = Repository.GetPRsByReviewer := rfl

lemma getPRByID_st (db : DB) (prID : UUID) : (Repository.GetPRByID db prID).2 = db := by
  unfold Repository.GetPRByID
  cases db.prs.find? (fun r => r.pullRequestID == prID) <;> rfl

lemma find?_update_prs (l : List PRRow) (prID : UUID) (f : PRRow → PRRow)
    (hf : ∀ r, (f r).pullRequestID = r.pullRequestID) :
    (l.map (fun r => if r.pullRequestID == prID then f r else r)).find?
        (fun r => r.pullRequestID == prID) =
      (l.find? (fun r => r.pullRequestID == prID)).map f := by
  induction l with
  | nil => rfl
  | cons r t ih =>
    simp only [List.map_cons]
    by_cases h : r.pullRequestID = prID
    · rw [show (if r.pullRequestID == prID then f r else r) = f r from by simp [h]]
      rw [List.find?_cons_of_pos _ (by simp [hf r, h]),
        List.find?_cons_of_pos _ (by simp [h])]
      rfl
    · rw [show (if r.pullRequestID == prID then f r else r) = r from by simp [h]]
      rw [List.find?_cons_of_neg _ (by simp [h]), List.find?_cons_of_neg _ (by simp [h])]
      exact ih

lemma reviewersOf_append_pairs (rows : List (UUID × UUID)) (prID : UUID) (rs : List UUID)
    (hstale : rows.filter (fun p => p.1 == prID) = []) :
    ((rows ++ rs.map (fun r => (prID, r))).filter (fun p => p.1 == prID)).map
      (fun p => p.2) = rs := by
  rw [List.filter_append, hstale, List.nil_append]
  have hall : (rs.map (fun r => (prID, r))).filter (fun p => p.1 == prID) =
      rs.map (fun r => (prID, r)) := by
    rw [List.filter_eq_self]
    intro a ha
    rcases List.mem_map.mp ha with ⟨r, -, hr⟩
    simp [← hr]
  rw [hall, List.map_map]
  simp [Function.comp]

lemma reviewersOf_replace (rows : List (UUID × UUID)) (prID old new : UUID) :
    ((rows.map (fun p => if p.1 == prID && p.2 == old then (p.1, new) else p)).filter
        (fun p => p.1 == prID)).map (fun p => p.2) =
      ((rows.filter (fun p => p.1 == prID)).map (fun p => p.2)).map
        (fun r => if r == old then new else r) := by
  induction rows with
  | nil => rfl
  | cons p t ih =>
    rcases p with ⟨a, b⟩
    simp only [List.map_cons]
    by_cases h1 : a = prID
    · by_cases h2 : b = old
      · rw [show (if (a, b).1 == prID && (a, b).2 == old then ((a, b).1, new) else (a, b)) =
            (a, new) from by simp [h1, h2]]
        rw [List.filter_cons_of_pos (by simp [h1]), List.filter_cons_of_pos (by simp [h1])]
        simp only [List.map_cons, ih]
        simp [h2]
      · rw [show (if (a, b).1 == prID && (a, b).2 == old then ((a, b).1, new) else (a, b)) =
            (a, b) from by simp [h2]]
        rw [List.filter_cons_of_pos (by simp [h1]), List.filter_cons_of_pos (by simp [h1])]
        simp only [List.map_cons, ih]
        simp [h2]
    · rw [show (if (a, b).1 == prID && (a, b).2 == old then ((a, b).1, new) else (a, b)) =
          (a, b) from by simp [h1]]
      rw [List.filter_cons_of_neg (by simp [h1]), List.filter_cons_of_neg (by simp [h1])]
      exact ih

lemma replace_not_mem (xs : List UUID) (old new a : UUID) (ha : a ∉ xs) (hanew : a ≠ new) :
    a ∉ xs.map (fun r => if r == old then new else r) := by
  intro hmem
  rcases List.mem_map.mp hmem with ⟨r, hr, heq⟩
  by_cases h : r = old
  · simp [h] at heq
    exact hanew heq.symm
  · simp [h] at heq
    exact ha (heq ▸ hr)

lemma replace_nodup (xs : List UUID) (old new : UUID) (hnd : xs.Nodup) (hnew : new ∉ xs) :
    (xs.map (fun r => if r == old then new else r)).Nodup := by
  induction xs with
  | nil => simp
  | cons x t ih =>
    simp only [List.map_cons, List.nodup_cons]
    simp only [List.nodup_cons] at hnd
    obtain ⟨hx, hndt⟩ := hnd
    simp only [List.mem_cons, not_or] at hnew
    obtain ⟨hnx, hnt⟩ := hnew
    refine ⟨?_, ih hndt hnt⟩
    intro hmem
    rcases List.mem_map.mp hmem with ⟨r, hr, heq⟩
    by_cases hx2 : x = old <;> by_cases hr2 : r = old <;> simp [hx2, hr2] at heq
    · exact hx (hx2 ▸ hr2 ▸ hr)
    · exact hnt (heq ▸ hr)
    · exact hnx heq
    · exact hx (heq ▸ hr)

lemma getD_mem {α : Type _} (l : List α) (j : Nat) (d : α) (h : j < l.length) :
    l.getD j d ∈ l := by
  rw [List.getD_eq_getElem?_getD, List.getElem?_eq_getElem h]
  exact List.getElem_mem h

lemma validateReviewersCount_ok_iff (l : List UUID) :
    ValidateReviewersCount l = .ok () ↔ l.length = 2 := by
  unfold ValidateReviewersCount
  split_ifs with h1 h2
  · exact iff_of_false (fun h => by simp at h) (by omega)
  · exact iff_of_false (fun h => by simp at h) (by omega)
  · exact iff_of_true rfl (by omega)

lemma validateReviewersCount_not_over (l : List UUID) (h : l.length ≤ 2) :
    ValidateReviewersCount l ≠ .error ("cannot assign more than 2 reviewers") := by
  unfold ValidateReviewersCount
  split_ifs with h1 h2
  · intro hc
    simp only [Except.error.injEq] at hc
    exact absurd hc (by decide)
  · omega
  · intro hc
    simp at hc

lemma mergePR_db_merged (db : DB) (rng : Rng) (prID : UUID) (row : PRRow) (now : Nat)
    (hpr : prID ≠ uuidNil)
    (hfind : db.prs.find? (fun r => r.pullRequestID == prID) = some row)
    (hm : row.status = StatusMerged) :
    MergePR dbRepo db rng prID now =
      ⟨.ok { pullRequestID := row.pullRequestID, pullRequestName := row.pullRequestName,
             authorID := row.authorID, status := row.status,
             assignedReviewers := Repository.reviewersOf db prID,
             mergedAt := row.mergedAt }, db, [.getPRByID prID], rng⟩ := by
  unfold MergePR
  rw [if_neg hpr]
  simp only [dbRepo_GetPRByID]
  unfold Repository.GetPRByID
  rw [hfind]
  dsimp only
  rw [if_pos hm]

/-- Claim C2: on a pull request whose stored status is merged, MergePR
returns the stored record unchanged, touches no state, and performs
only the one read (first conjunct); on a stored open pull request it
writes status merged with merged_at set to the current clock value and
returns the merged record, and a second MergePR on the resulting state
returns the same record without any further write, leaving merged_at
at the first call's clock value (second conjunct). -/
theorem mergePR_idempotent (db : DB) (rng rng2 : Rng) (prID : UUID) (row : PRRow)
    (now now2 : Nat) (hpr : prID ≠ uuidNil)
    (hfind : db.prs.find? (fun r => r.pullRequestID == prID) = some row) :
    (row.status = StatusMerged →
      MergePR dbRepo db rng prID now =
        ⟨.ok { pullRequestID := row.pullRequestID, pullRequestName := row.pullRequestName,
               authorID := row.authorID, status := row.status,
               assignedReviewers := Repository.reviewersOf db prID,
               mergedAt := row.mergedAt }, db, [.getPRByID prID], rng⟩) ∧
    (row.status = StatusOpen →
      MergePR dbRepo db rng prID now =
        ⟨.ok { pullRequestID := row.pullRequestID, pullRequestName := row.pullRequestName,
               authorID := row.authorID, status := StatusMerged,
               assignedReviewers := Repository.reviewersOf db prID,
               mergedAt := some now },
          { db with prs := db.prs.map (fun r =>
              if r.pullRequestID == prID then
                { r with status := StatusMerged, mergedAt := some now } else r) },
          [.getPRByID prID, .updatePRStatus prID StatusMerged (some now), .getPRByID prID],
          rng⟩ ∧
      MergePR dbRepo
          { db with prs := db.prs.map (fun r =>
              if r.pullRequestID == prID then
                { r with status := StatusMerged, mergedAt := some now } else r) }
          rng2 prID now2 =
        ⟨.ok { pullRequestID := row.pullRequestID, pullRequestName := row.pullRequestName,
               authorID := row.authorID, status := StatusMerged,
               assignedReviewers := Repository.reviewersOf db prID,
               mergedAt := some now },
          { db with prs := db.prs.map (fun r =>
              if r.pullRequestID == prID then
                { r with status := StatusMerged, mergedAt := some now } else r) },
          [.getPRByID prID], rng2⟩) := by
  constructor
  · intro hm
    exact mergePR_db_merged db rng prID row now hpr hfind hm
  · intro ho
    have hfindNew : (db.prs.map (fun r =>
        if r.pullRequestID == prID then
          { r with status := StatusMerged, mergedAt := some now } else r)).find?
          (fun r => r.pullRequestID == prID) =
        some { row with status := StatusMerged, mergedAt := some now } := by
      rw [find?_update_prs db.prs prID
        (fun r => { r with status := StatusMerged, mergedAt := some now }) (fun r => rfl),
        hfind]
      rfl
    constructor
    · unfold MergePR
      rw [if_neg hpr]
      simp only [dbRepo_GetPRByID, dbRepo_UpdatePRStatus]
      unfold Repository.GetPRByID
      rw [hfind]
      dsimp only
      rw [if_neg (by rw [ho]; decide)]
      unfold Repository.UpdatePRStatus
      dsimp only
      rw [hfindNew]
      dsimp only
      rfl
    · exact mergePR_db_merged _ rng2 prID
        { row with status := StatusMerged, mergedAt := some now } now2 hpr hfindNew rfl

/-- Concrete table state for the merge witness: one open pull request
7 by author 1 with reviewers 2 and 3. -/
def dbMergeW : DB :=
  ⟨[], [⟨7, "Feature", 1, StatusOpen, none⟩], [(7, 2), (7, 3)]⟩

/-- Claim C2, witness: merging open pull request 7 at clock 100 writes
merged with merged_at 100, and merging again at clock 200 returns the
same record with merged_at still 100 and no write. -/
theorem mergePR_idempotent_witness :
    MergePR dbRepo dbMergeW rngW 7 100 =
      ⟨.ok { pullRequestID := 7, pullRequestName := "Feature",
             authorID := 1, status := StatusMerged,
             assignedReviewers := Repository.reviewersOf dbMergeW 7,
             mergedAt := some 100 },
        { dbMergeW with prs := dbMergeW.prs.map (fun r =>
            if r.pullRequestID == 7 then
              { r with status := StatusMerged, mergedAt := some 100 } else r) },
        [.getPRByID 7, .updatePRStatus 7 StatusMerged (some 100), .getPRByID 7],
        rngW⟩ ∧
    MergePR dbRepo
        { dbMergeW with prs := dbMergeW.prs.map (fun r =>
            if r.pullRequestID == 7 then
              { r with status := StatusMerged, mergedAt := some 100 } else r) }
        rngW 7 200 =
      ⟨.ok { pullRequestID := 7, pullRequestName := "Feature",
             authorID := 1, status := StatusMerged,
             assignedReviewers := Repository.reviewersOf dbMergeW 7,
             mergedAt := some 100 },
        { dbMergeW with prs := dbMergeW.prs.map (fun r =>
            if r.pullRequestID == 7 then
              { r with status := StatusMerged, mergedAt := some 100 } else r) },
        [.getPRByID 7], rngW⟩ :=
  (mergePR_idempotent dbMergeW rngW rngW 7 ⟨7, "Feature", 1, StatusOpen, none⟩ 100 200
    (by decide) (by decide)).2 rfl

lemma createPR_db_success (db : DB) (rng : Rng) (prID : UUID) (prName : String)
    (authorID : UUID) (out : PullRequestWithReviewers)
    (hres : (CreatePR dbRepo db rng prID prName authorID).res = .ok out) :
    ∃ author : User,
      db.users.find? (fun u => u.userID == authorID) = some author ∧
      db.prs.any (fun r => r.pullRequestID == prID) = false ∧
      (selectReviewers rng (db.users.filter (fun u => u.teamName == author.teamName))
        authorID 2).1.length = 2 ∧
      (CreatePR dbRepo db rng prID prName authorID).st =
        { users := db.users,
          prs := db.prs ++ [⟨prID, prName, authorID, StatusOpen, none⟩],
          prReviewers := db.prReviewers ++
            (selectReviewers rng (db.users.filter (fun u => u.teamName == author.teamName))
              authorID 2).1.map (fun r => (prID, r)) } := by
  unfold CreatePR at hres ⊢
  dsimp only at hres ⊢
  rcases hv : ValidatePullRequest
      { pullRequestID := prID, pullRequestName := prName, authorID := authorID,
        status := StatusOpen } with e | u
  · simp [hv] at hres
  try simp only [hv] at hres ⊢
  simp only [dbRepo_PRExists] at hres ⊢
  unfold Repository.PRExists at hres ⊢
  cases hex : db.prs.any (fun r => r.pullRequestID == prID) with
  | true => simp [hv, hex] at hres
  | false =>
    try simp only [hex] at hres ⊢
    simp only [dbRepo_GetUserByID] at hres ⊢
    unfold Repository.GetUserByID at hres ⊢
    rcases hau : db.users.find? (fun u => u.userID == authorID) with - | author
    · simp [hv, hex, hau] at hres
    try simp only [hau] at hres ⊢
    simp only [dbRepo_GetTeamMembers] at hres ⊢
    unfold Repository.GetTeamMembers at hres ⊢
    try dsimp only at hres ⊢
    rcases hvc : ValidateReviewersCount
        (selectReviewers rng (db.users.filter (fun u => u.teamName == author.teamName))
          authorID 2).1 with e2 | u2
    · simp [hv, hex, hau, hvc] at hres
    try simp only [hvc] at hres ⊢
    have hlen : (selectReviewers rng
        (db.users.filter (fun u => u.teamName == author.teamName)) authorID 2).1.length = 2 := by
      cases u2
      exact (validateReviewersCount_ok_iff _).mp hvc
    simp only [dbRepo_CreatePR] at hres ⊢
    unfold Repository.CreatePR at hres ⊢
    rw [if_neg (by rw [hex]; simp)] at hres ⊢
    try dsimp only at hres ⊢
    simp only [dbRepo_GetPRByID] at hres ⊢
    rcases hfin : Repository.GetPRByID
        { db with
          prs := db.prs ++
            [{ pullRequestID := prID, pullRequestName := prName, authorID := authorID,
               status := StatusOpen, mergedAt := none }],
          prReviewers := db.prReviewers ++
            (selectReviewers rng (db.users.filter (fun u => u.teamName == author.teamName))
              authorID 2).1.map (fun r => (prID, r)) } prID with ⟨r5, d5⟩
    have hd5 : d5 = { db with
        prs := db.prs ++
          [{ pullRequestID := prID, pullRequestName := prName, authorID := authorID,
             status := StatusOpen, mergedAt := none }],
        prReviewers := db.prReviewers ++
          (selectReviewers rng (db.users.filter (fun u => u.teamName == author.teamName))
            authorID 2).1.map (fun r => (prID, r)) } := by
      have h2 := getPRByID_st
        { db with
          prs := db.prs ++
            [{ pullRequestID := prID, pullRequestName := prName, authorID := authorID,
               status := StatusOpen, mergedAt := none }],
          prReviewers := db.prReviewers ++
            (selectReviewers rng (db.users.filter (fun u => u.teamName == author.teamName))
              authorID 2).1.map (fun r => (prID, r)) } prID
      rw [hfin] at h2
      exact h2
    try simp only [hfin] at hres ⊢
    cases r5 with
    | error e5 => simp at hres
    | ok o5 =>
      try dsimp only
      exact ⟨author, rfl, trivial, hlen, hd5⟩

/-- Claim C3: with a valid request, a fresh id and a resolvable author,
CreatePR on the SQL repository fails with the minimum-reviewers
validation error and leaves the state untouched whenever fewer than two
eligible candidates (active team members other than the author) exist;
and every successful CreatePR persists exactly two reviewer-assignment
rows for the new pull request. -/
theorem createPR_two_reviewers (db : DB) (rng : Rng) (prID : UUID) (prName : String)
    (authorID : UUID) (author : User)
    (hval : ValidatePullRequest ⟨prID, prName, authorID, StatusOpen⟩ = .ok ())
    (hex : db.prs.any (fun r => r.pullRequestID == prID) = false)
    (hauthor : db.users.find? (fun u => u.userID == authorID) = some author) :
    (((db.users.filter (fun u => u.teamName == author.teamName)).filter
        (fun m => m.userID != authorID && m.isActive)).length < 2 →
      CreatePR dbRepo db rng prID prName authorID =
        ⟨.error ("validation error: not enough reviewers: minimum 2 required"), db,
          [.prExists prID, .getUserByID authorID, .getTeamMembers author.teamName],
          (selectReviewers rng (db.users.filter (fun u => u.teamName == author.teamName))
            authorID 2).2⟩) ∧
    (∀ out : PullRequestWithReviewers,
      (CreatePR dbRepo db rng prID prName authorID).res = .ok out →
      db.prReviewers.filter (fun p => p.1 == prID) = [] →
      (Repository.reviewersOf (CreatePR dbRepo db rng prID prName authorID).st
        prID).length = 2) := by
  constructor
  · intro hfew
    unfold CreatePR
    dsimp only
    rw [hval]
    dsimp only
    simp only [dbRepo_PRExists]
    unfold Repository.PRExists
    rw [hex]
    dsimp only
    simp only [dbRepo_GetUserByID]
    unfold Repository.GetUserByID
    rw [hauthor]
    dsimp only
    simp only [dbRepo_GetTeamMembers]
    unfold Repository.GetTeamMembers
    dsimp only
    have hvc : ValidateReviewersCount (selectReviewers rng
        (db.users.filter (fun u => u.teamName == author.teamName)) authorID 2).1 =
        .error ("not enough reviewers: minimum 2 required") := by
      unfold ValidateReviewersCount
      rw [if_pos]
      rw [selectReviewers_length]
      unfold minInt
      split_ifs <;> omega
    rw [hvc]
    dsimp only
    rfl
  · intro out hres hstale
    obtain ⟨author2, hau2, -, hlen, hst⟩ :=
      createPR_db_success db rng prID prName authorID out hres
    rw [hst]
    unfold Repository.reviewersOf
    dsimp only
    rw [reviewersOf_append_pairs _ _ _ hstale]
    exact hlen

/-- Concrete table state for the CreatePR witness: team backend with
active author 1 and one other active member, so only one eligible
candidate exists. -/
def dbFewW : DB :=
  ⟨[⟨1, "Alice", "backend", true⟩, ⟨2, "Bob", "backend", true⟩], [], []⟩

/-- Claim C3, witness: creating pull request 9 by author 1 on the
two-member team fails with the minimum-reviewers validation error and
no write. -/
theorem createPR_two_reviewers_witness :
    CreatePR dbRepo dbFewW rngW 9 "Feature" 1 =
      ⟨.error ("validation error: not enough reviewers: minimum 2 required"), dbFewW,
        [.prExists 9, .getUserByID 1, .getTeamMembers ("backend")],
        (selectReviewers rngW (dbFewW.users.filter (fun u => u.teamName == "backend"))
          1 2).2⟩ :=
  (createPR_two_reviewers dbFewW rngW 9 "Feature" 1 ⟨1, "Alice", "backend", true⟩
    (by decide) (by decide) (by decide)).1 (by decide)

lemma reassignReviewer_db_success (db : DB) (rng : Rng) (prID oldUserID : UUID)
    (out : PullRequestWithReviewers × UUID)
    (hres : (ReassignReviewer dbRepo db rng prID oldUserID).res = .ok out) :
    ∃ (row : PRRow) (newUser : User),
      db.prs.find? (fun r => r.pullRequestID == prID) = some row ∧
      newUser ∈ (db.users.filter (fun u => u.teamName ==
          ((db.users.find? (fun u => u.userID == oldUserID)).getD defaultUser).teamName)).filter
        (fun m => !((row.authorID :: Repository.reviewersOf db prID).contains m.userID) &&
          m.isActive) ∧
      out.2 = newUser.userID ∧
      (ReassignReviewer dbRepo db rng prID oldUserID).st =
        { db with prReviewers := db.prReviewers.map (fun p =>
            if p.1 == prID && p.2 == oldUserID then (p.1, newUser.userID) else p) } := by
  unfold ReassignReviewer at hres ⊢
  by_cases hnil : (prID = uuidNil ∨ oldUserID = uuidNil)
  · rw [if_pos hnil] at hres
    simp at hres
  rw [if_neg hnil] at hres ⊢
  simp only [dbRepo_GetPRByID] at hres ⊢
  unfold Repository.GetPRByID at hres ⊢
  rcases hfind : db.prs.find? (fun r => r.pullRequestID == prID) with - | row
  · simp [hfind] at hres
  try simp only [hfind] at hres ⊢
  try dsimp only at hres ⊢
  by_cases hst : row.status = StatusMerged
  · simp [hst] at hres
  rw [if_neg hst] at hres ⊢
  by_cases hctn : (Repository.reviewersOf db prID).contains oldUserID = false
  · rw [if_pos hctn] at hres
    simp at hres
  rw [if_neg hctn] at hres ⊢
  simp only [dbRepo_GetUserByID] at hres ⊢
  unfold Repository.GetUserByID at hres ⊢
  rcases huser : db.users.find? (fun u => u.userID == oldUserID) with - | oldUser
  · simp [huser] at hres
  try simp only [huser] at hres ⊢
  try dsimp only at hres ⊢
  simp only [dbRepo_GetTeamMembers] at hres ⊢
  unfold Repository.GetTeamMembers at hres ⊢
  try dsimp only at hres ⊢
  by_cases hcand : (db.users.filter (fun u => u.teamName == oldUser.teamName)).filter
      (fun m => !((row.authorID :: Repository.reviewersOf db prID).contains m.userID) &&
        m.isActive) = []
  · rw [if_pos hcand] at hres
    simp at hres
  rw [if_neg hcand] at hres ⊢
  try simp only [Rng.intn] at hres ⊢
  try dsimp only at hres ⊢
  have hlenpos : 0 < ((db.users.filter (fun u => u.teamName == oldUser.teamName)).filter
      (fun m => !((row.authorID :: Repository.reviewersOf db prID).contains m.userID) &&
        m.isActive)).length := List.length_pos.mpr hcand
  have hmemrev : oldUserID ∈ Repository.reviewersOf db prID := by
    cases hb : (Repository.reviewersOf db prID).contains oldUserID with
    | false => exact absurd hb hctn
    | true => simpa using hb
  have haff : ¬(db.prReviewers.countP (fun p => p.1 == prID && p.2 == oldUserID) = 0) := by
    unfold Repository.reviewersOf at hmemrev
    rcases List.mem_map.mp hmemrev with ⟨p, hp, hp2⟩
    have hp3 := List.mem_filter.mp hp
    have : 0 < db.prReviewers.countP (fun p => p.1 == prID && p.2 == oldUserID) := by
      rw [List.countP_pos_iff]
      exact ⟨p, hp3.1, by simp [hp2, (by simpa using hp3.2 : p.1 = prID)]⟩
    omega
  try simp only [dbRepo_ReplaceReviewer] at hres ⊢
  unfold Repository.ReplaceReviewer at hres ⊢
  try dsimp only at hres ⊢
  rw [if_neg haff] at hres ⊢
  try dsimp only at hres ⊢
  rw [hfind] at hres ⊢
  try dsimp only at hres ⊢
  cases hres
  refine ⟨row, ((db.users.filter (fun u => u.teamName == oldUser.teamName)).filter
      (fun m => !((row.authorID :: Repository.reviewersOf db prID).contains m.userID) &&
        m.isActive)).getD
      (rng.stream rng.pos %
        ((db.users.filter (fun u => u.teamName == oldUser.teamName)).filter
          (fun m => !((row.authorID :: Repository.reviewersOf db prID).contains
            m.userID) && m.isActive)).length) defaultUser, rfl, ?_, rfl, rfl⟩
  exact getD_mem _ _ _ (Nat.mod_lt _ hlenpos)

/-- Claim C1: for every successful CreatePR and every successful
ReassignReviewer on the SQL repository, the reviewer rows stored for
the affected pull request contain no duplicate id and never the author
id. CreatePR needs the user table to carry unique ids and the fresh
pull request to have no stale reviewer rows; ReassignReviewer needs
the stored reviewer set it starts from to satisfy the invariant it
preserves. -/
theorem exclusion_invariant :
    (∀ (db : DB) (rng : Rng) (prID : UUID) (prName : String) (authorID : UUID)
        (out : PullRequestWithReviewers),
      (db.users.map User.userID).Nodup →
      db.prReviewers.filter (fun p => p.1 == prID) = [] →
      (CreatePR dbRepo db rng prID prName authorID).res = .ok out →
      authorID ∉ Repository.reviewersOf (CreatePR dbRepo db rng prID prName authorID).st
          prID ∧
      (Repository.reviewersOf (CreatePR dbRepo db rng prID prName authorID).st
        prID).Nodup) ∧
    (∀ (db : DB) (rng : Rng) (prID oldUserID : UUID)
        (out : PullRequestWithReviewers × UUID) (row : PRRow),
      db.prs.find? (fun r => r.pullRequestID == prID) = some row →
      row.authorID ∉ Repository.reviewersOf db prID →
      (Repository.reviewersOf db prID).Nodup →
      (ReassignReviewer dbRepo db rng prID oldUserID).res = .ok out →
      row.authorID ∉ Repository.reviewersOf
          (ReassignReviewer dbRepo db rng prID oldUserID).st prID ∧
      (Repository.reviewersOf (ReassignReviewer dbRepo db rng prID oldUserID).st
        prID).Nodup) := by
  constructor
  · intro db rng prID prName authorID out hnd hstale hres
    obtain ⟨author, hau, -, -, hst⟩ := createPR_db_success db rng prID prName authorID out hres
    rw [hst]
    unfold Repository.reviewersOf
    dsimp only
    rw [reviewersOf_append_pairs _ _ _ hstale]
    constructor
    · intro hmem
      obtain ⟨m, -, hmx, hneq, -⟩ :=
        selectReviewers_mem rng (db.users.filter (fun u => u.teamName == author.teamName))
          authorID 2 authorID hmem
      exact hneq hmx
    · refine selectReviewers_nodup rng _ authorID 2 ?_
      refine hnd.sublist ?_
      exact (List.filter_sublist db.users).map User.userID
  · intro db rng prID oldUserID out row hfind hanot hndrev hres
    obtain ⟨row2, newUser, hfind2, hcand, -, hst⟩ :=
      reassignReviewer_db_success db rng prID oldUserID out hres
    rw [hfind] at hfind2
    injection hfind2 with hrow
    subst hrow
    rw [hst]
    unfold Repository.reviewersOf
    dsimp only
    rw [reviewersOf_replace]
    have hnewnot : newUser.userID ∉ row.authorID :: Repository.reviewersOf db prID := by
      have h2 := (List.mem_filter.mp hcand).2
      simp only [Bool.and_eq_true, Bool.not_eq_true'] at h2
      intro hmem
      have := h2.1
      rw [show ((row.authorID :: Repository.reviewersOf db prID).contains newUser.userID) =
        true from by simpa using hmem] at this
      cases this
    have hnewne : newUser.userID ≠ row.authorID := by
      intro h
      exact hnewnot (by simp [h])
    have hnewnotrev : newUser.userID ∉ Repository.reviewersOf db prID := by
      intro h
      exact hnewnot (by simp [h])
    constructor
    · exact replace_not_mem _ _ _ _ hanot (fun h => hnewne h.symm)
    · exact replace_nodup _ _ _ hndrev hnewnotrev

/-- Concrete table state for the creation half of the exclusion
witness: team backend with four active members, author 1. -/
def dbC1a : DB :=
  ⟨[⟨1, "Alice", "backend", true⟩, ⟨2, "Bob", "backend", true⟩,
    ⟨3, "Carl", "backend", true⟩, ⟨4, "Dave", "backend", true⟩], [], []⟩

/-- Concrete table state for the reassignment half of the exclusion
witness: open pull request 5 by author 1 with reviewer 2, team backend
with one further active member 3. -/
def dbC1b : DB :=
  ⟨[⟨1, "Alice", "backend", true⟩, ⟨2, "Bob", "backend", true⟩,
    ⟨3, "Carl", "backend", true⟩],
   [⟨5, "Feature", 1, StatusOpen, none⟩], [(5, 2)]⟩

/-- Claim C1, witness: the exclusion invariant evaluated on the two
concrete successful calls: creation stores reviewer rows without the
author and without repetition, and so does reassignment. -/
theorem exclusion_invariant_witness :
    ((1 : UUID) ∉ Repository.reviewersOf (CreatePR dbRepo dbC1a rngW 9 "Feature" 1).st 9 ∧
      (Repository.reviewersOf (CreatePR dbRepo dbC1a rngW 9 "Feature" 1).st 9).Nodup) ∧
    ((1 : UUID) ∉ Repository.reviewersOf (ReassignReviewer dbRepo dbC1b rngW 5 2).st 5 ∧
      (Repository.reviewersOf (ReassignReviewer dbRepo dbC1b rngW 5 2).st 5).Nodup) :=
  ⟨exclusion_invariant.1 dbC1a rngW 9 "Feature" 1
      ⟨9, "Feature", 1, StatusOpen, [3, 4], none⟩ (by decide) (by decide) (by decide),
    exclusion_invariant.2 dbC1b rngW 5 2
      (⟨5, "Feature", 1, StatusOpen, [3], none⟩, 3) ⟨5, "Feature", 1, StatusOpen, none⟩
      (by decide) (by decide) (by decide) (by decide)⟩

lemma validatePullRequest_open_errors (prID : UUID) (prName : String) (authorID : UUID)
    (e : String)
    (h : ValidatePullRequest ⟨prID, prName, authorID, StatusOpen⟩ = .error e) :
    e = "pull_request_id cannot be nil UUID" ∨ e = "pull_request_name cannot be empty" ∨
    e = "pull_request_name too long (max 255 characters)" ∨
    e = "author_id cannot be nil UUID" := by
  unfold ValidatePullRequest at h
  split_ifs at h with h1 h2 h3 h4
  · injection h with he
    exact Or.inl he.symm
  · injection h with he
    exact Or.inr (Or.inl he.symm)
  · injection h with he
    exact Or.inr (Or.inr (Or.inl he.symm))
  · injection h with he
    exact Or.inr (Or.inr (Or.inr he.symm))
  · have hopen : ValidatePRStatus StatusOpen = .ok () := by decide
    rw [hopen] at h
    cases h

lemma validateReviewersCount_error_cases (l : List UUID) (e : String)
    (h : ValidateReviewersCount l = .error e) :
    e = "not enough reviewers: minimum 2 required" ∨
    (e = "cannot assign more than 2 reviewers" ∧ 2 < l.length) := by
  unfold ValidateReviewersCount at h
  split_ifs at h with h1 h2
  · injection h with he
    exact Or.inl he.symm
  · injection h with he
    exact Or.inr ⟨he.symm, by omega⟩

/-- Claim C9: the reviewer list CreatePR passes to
ValidateReviewersCount is the selectReviewers output with maxCount 2,
whose length never exceeds 2; a list of at most 2 entries can never
trigger the more-than-2 rejection; and consequently CreatePR on the
SQL repository can never fail with the more-than-2 validation
error. -/
theorem more_than_two_unreachable :
    (∀ (rng : Rng) (members : List User) (excludeID : UUID),
      (selectReviewers rng members excludeID 2).1.length ≤ 2) ∧
    (∀ l : List UUID, l.length ≤ 2 →
      ValidateReviewersCount l ≠ .error ("cannot assign more than 2 reviewers")) ∧
    (∀ (db : DB) (rng : Rng) (prID : UUID) (prName : String) (authorID : UUID),
      (CreatePR dbRepo db rng prID prName authorID).res ≠
        .error ("validation error: cannot assign more than 2 reviewers")) := by
  have hsel : ∀ (rng : Rng) (members : List User) (excludeID : UUID),
      (selectReviewers rng members excludeID 2).1.length ≤ 2 := by
    intro rng members excludeID
    rw [selectReviewers_length]
    unfold minInt
    split_ifs <;> omega
  refine ⟨hsel, fun l h => validateReviewersCount_not_over l h, ?_⟩
  intro db rng prID prName authorID hcontra
  unfold CreatePR at hcontra
  dsimp only at hcontra
  rcases hv : ValidatePullRequest
      { pullRequestID := prID, pullRequestName := prName, authorID := authorID,
        status := StatusOpen } with e | u
  · try simp only [hv] at hcontra
    try dsimp only at hcontra
    injection hcontra with he
    rcases validatePullRequest_open_errors prID prName authorID e hv with h | h | h | h <;>
      subst h <;> exact absurd he (by decide)
  · try simp only [hv] at hcontra
    try dsimp only at hcontra
    simp only [dbRepo_PRExists] at hcontra
    unfold Repository.PRExists at hcontra
    cases hany : db.prs.any (fun r => r.pullRequestID == prID) with
    | true =>
      try simp only [hany] at hcontra
      try dsimp only at hcontra
      injection hcontra with he
      exact absurd he (by decide)
    | false =>
      try simp only [hany] at hcontra
      try dsimp only at hcontra
      simp only [dbRepo_GetUserByID] at hcontra
      unfold Repository.GetUserByID at hcontra
      rcases hau : db.users.find? (fun u => u.userID == authorID) with - | author
      · try simp only [hau] at hcontra
        try dsimp only at hcontra
        injection hcontra with he
        exact absurd he (by decide)
      · try simp only [hau] at hcontra
        try dsimp only at hcontra
        simp only [dbRepo_GetTeamMembers] at hcontra
        unfold Repository.GetTeamMembers at hcontra
        try dsimp only at hcontra
        rcases hvc : ValidateReviewersCount
            (selectReviewers rng (db.users.filter (fun u => u.teamName == author.teamName))
              authorID 2).1 with e2 | u2
        · try simp only [hvc] at hcontra
          try dsimp only at hcontra
          injection hcontra with he
          rcases validateReviewersCount_error_cases _ _ hvc with h | ⟨h, hlen⟩
          · subst h
            exact absurd he (by decide)
          · have := hsel rng (db.users.filter (fun u => u.teamName == author.teamName))
              authorID
            omega
        · try simp only [hvc] at hcontra
          try dsimp only at hcontra
          simp only [dbRepo_CreatePR] at hcontra
          unfold Repository.CreatePR at hcontra
          rw [if_neg (by rw [hany]; simp)] at hcontra
          try dsimp only at hcontra
          simp only [dbRepo_GetPRByID] at hcontra
          unfold Repository.GetPRByID at hcontra
          try dsimp only at hcontra
          rcases hf5 : (db.prs ++
              [({ pullRequestID := prID, pullRequestName := prName, authorID := authorID,
                  status := StatusOpen, mergedAt := none } : PRRow)]).find?
              (fun r => r.pullRequestID == prID) with - | r5
          · try simp only [hf5] at hcontra
            try dsimp only at hcontra
            injection hcontra with he
            exact absurd he (by decide)
          · try simp only [hf5] at hcontra
            try dsimp only at hcontra
            cases hcontra

/-- Claim C9, witness: the cap, the rejection-branch guard and the
unreachability statement evaluated at concrete inputs. -/
theorem more_than_two_unreachable_witness :
    (selectReviewers rngW [] 0 2).1.length ≤ 2 ∧
    ValidateReviewersCount [1] ≠ .error ("cannot assign more than 2 reviewers") ∧
    (CreatePR dbRepo dbC1a rngW 9 "Feature" 1).res ≠
      .error ("validation error: cannot assign more than 2 reviewers") :=
  ⟨more_than_two_unreachable.1 rngW [] 0,
    more_than_two_unreachable.2.1 [1] (by decide),
    more_than_two_unreachable.2.2 dbC1a rngW 9 "Feature" 1⟩

end PRReviewer
